import Mathlib

/-!
Verification of the Agent Orchestrator core: the job queue, the idea and
ticket/subtask pipeline state machines, the budget guard and the frontend
API helper, shallowly embedded from the repository's design documents
(`docs/design/02-data-models.md`, `04-ideas-pipeline`, `05-development-pipeline`,
`11-cost-management`) and the frontend source (`frontend/src/api/client.js`).

The backend executable for the queue and the pipelines is not part of the
repository (the repo holds the schema, the design documents and the Svelte
frontend), so those operations are modelled from the specification's contract,
faithful to its words; the budget check (`check_limits`) and the HTTP helper
(`request`) are translated from the code that is present.
-/

namespace Orchestrator

/-- Job status, from the `job_queue` table of `02-data-models.md`:
pending, running, done, failed, cancelled. -/
inductive JobStatus where
  | pending | running | done | failed | cancelled
deriving DecidableEq, Repr

/-- A row of the `job_queue` table (`02-data-models.md`): type and payload are
opaque strings; times are epoch seconds. -/
structure Job where
  id : Nat
  job_type : String
  payload : String
  status : JobStatus
  priority : Int
  attempts : Nat
  max_attempts : Nat
  scheduled_at : Nat
  started_at : Option Nat
  completed_at : Option Nat
  error : Option String
  result : Option String
deriving DecidableEq, Repr

/-- Modelled from the spec: the retry backoff schedule of
`05-development-pipeline.md` ("Max Attempts: 3, Backoff: exponential
(1s, 5s, 30s)") — 1s after the first failed attempt, 5s after the second,
30s from the third on (capped). In seconds. -/
def backoff : Nat → Nat
  | 0 => 1
  | 1 => 1
  | 2 => 5
  | _ => 30

/-- Modelled from the spec: `fail(job_id, error)` of the Queue contract —
increments `attempts`; if the new count is still below `max_attempts`,
resets the job to `pending` with `scheduled_at = now + backoff(attempts)`;
otherwise marks it `failed`. The backend implementing it is not in the
repository. -/
def failJ (now : Nat) (err : String) (j : Job) : Job :=
  let a := j.attempts + 1
  if a < j.max_attempts then
    { j with attempts := a, status := JobStatus.pending,
             scheduled_at := now + backoff a, error := some err }
  else
    { j with attempts := a, status := JobStatus.failed, error := some err }

/-- Modelled from the spec: `complete(job_id, result)` — sets `status=done`,
`completed_at=now`, stores `result`; completing an already-`done` job is a
no-op. The backend implementing it is not in the repository. -/
def completeJ (now : Nat) (r : String) (j : Job) : Job :=
  if j.status = JobStatus.done then j
  else { j with status := JobStatus.done, completed_at := some now, result := some r }

/-- Modelled from the spec: `cancel(job_id)` — allowed only while the job is
`pending` or `running`; otherwise a no-op. -/
def cancelJ (j : Job) : Job :=
  if j.status = JobStatus.pending ∨ j.status = JobStatus.running then
    { j with status := JobStatus.cancelled }
  else j

/-- Whether a job is visible to `claim`: `status=pending AND scheduled_at<=now`. -/
def eligible (now : Nat) (j : Job) : Bool :=
  j.status = JobStatus.pending && j.scheduled_at ≤ now

/-- Marking a claimed job: `running` with `started_at=now`. -/
def markRunning (now : Nat) (j : Job) : Job :=
  { j with status := JobStatus.running, started_at := some now }

/-- Modelled from the spec: the single-job view of a queue operation, used to
state that no sequence of queue operations revives a `failed` job. -/
inductive QOp where
  | claimOne (now : Nat)
  | complete (now : Nat) (r : String)
  | fail (now : Nat) (e : String)
  | cancel
deriving DecidableEq, Repr

/-- Modelled from the spec: the effect of one queue operation on one job.
`claimOne` only touches a due `pending` job (the claim compare-and-swap);
the rest are the contract operations above. -/
def applyOp (j : Job) : QOp → Job
  | QOp.claimOne now => if eligible now j then markRunning now j else j
  | QOp.complete now r => completeJ now r j
  | QOp.fail now e => failJ now e j
  | QOp.cancel => cancelJ j

/-- The claim selection order of the Queue contract: `priority DESC,
scheduled_at ASC` (ties in priority break by earliest `scheduled_at`),
matching the `job_queue` indexes of `02-data-models.md`. -/
def claimLE (a b : Job) : Prop :=
  b.priority < a.priority ∨ (a.priority = b.priority ∧ a.scheduled_at ≤ b.scheduled_at)

instance : DecidableRel claimLE := fun a b => by
  unfold claimLE; infer_instance

instance : IsTotal Job claimLE := by
  constructor
  intro a b
  rcases lt_trichotomy a.priority b.priority with h | h | h
  · exact Or.inr (Or.inl h)
  · rcases Nat.le_total a.scheduled_at b.scheduled_at with h' | h'
    · exact Or.inl (Or.inr ⟨h, h'⟩)
    · exact Or.inr (Or.inr ⟨h.symm, h'⟩)
  · exact Or.inl (Or.inl h)

instance : IsTrans Job claimLE := by
  constructor
  rintro a b c (hab | ⟨hab, hab'⟩) (hbc | ⟨hbc, hbc'⟩)
  · exact Or.inl (hbc.trans hab)
  · exact Or.inl (hbc ▸ hab)
  · exact Or.inl (hab ▸ hbc)
  · exact Or.inr ⟨hab.trans hbc, hab'.trans hbc'⟩

/-- Modelled from the spec: `claim(worker_capacity)` of the Queue contract —
selects up to `cap` jobs with `status=pending AND scheduled_at<=now`, ordered
by `priority DESC, scheduled_at ASC`, and marks them `running` with
`started_at=now`. Returns the claimed jobs and the updated store. The backend
implementing it is not in the repository. -/
def claimQ (cap : Nat) (now : Nat) (store : List Job) : List Job × List Job :=
  let chosen := (List.insertionSort claimLE (store.filter (eligible now))).take cap
  let ids := chosen.map (fun j => j.id)
  (chosen.map (markRunning now),
   store.map (fun j => if ids.contains j.id then markRunning now j else j))

/-- Modelled from the spec: one atomic compare-and-swap claim step by one
caller against a shared job. The state is the job's status together with the
list of callers that have received the job so far; a caller receives the job
exactly when its conditional update observes `pending`. -/
def casClaim (st : JobStatus × List Nat) (c : Nat) : JobStatus × List Nat :=
  match st.1 with
  | JobStatus.pending => (JobStatus.running, st.2 ++ [c])
  | _ => st

/-- Modelled from the spec: an interleaving of the atomic claim steps of the
given callers (in interleaving order) against one initially-`pending` job. -/
def runClaims (callers : List Nat) : JobStatus × List Nat :=
  callers.foldl casClaim (JobStatus.pending, [])

/-! ### Idea pipeline (`04-ideas-pipeline.md`) -/

/-- Idea status, from the `ideas` table of `02-data-models.md`. -/
inductive IdeaStatus where
  | pending | refining | questions | approved | rejected | converted
deriving DecidableEq, Repr

/-- Question status, from the `questions` table of `02-data-models.md`. -/
inductive QStatus where
  | pending | answered | skipped
deriving DecidableEq, Repr

/-- The pipeline state of one Idea: its status, the statuses of its
Questions, and the id of the Ticket it was converted into, if any
(conversion is 1:1). -/
structure IdeaState where
  idea : IdeaStatus
  questions : List QStatus
  ticket : Option Nat
deriving DecidableEq, Repr

/-- Outcome of an approval attempt: the (possibly updated) idea state, the
returned ticket id on success, and the validation error on failure. -/
structure ApproveResult where
  state : IdeaState
  ticket : Option Nat
  error : Option String
deriving DecidableEq, Repr

/-- Modelled from the spec: `approve_idea` — rejected synchronously with a
validation error while any Question is `pending` (state unchanged);
re-approving an already-converted Idea is a no-op that returns the existing
Ticket; otherwise the Idea converts and exactly one Ticket is created. The
backend implementing it is not in the repository. -/
def approveIdea (nextId : Nat) (s : IdeaState) : ApproveResult :=
  if QStatus.pending ∈ s.questions then
    { state := s, ticket := none, error := some "validation: pending questions" }
  else
    match s.ticket with
    | some t => { state := s, ticket := some t, error := none }
    | none =>
      if s.idea = IdeaStatus.rejected then
        { state := s, ticket := none, error := some "validation: idea rejected" }
      else
        { state := { s with idea := IdeaStatus.converted, ticket := some nextId },
          ticket := some nextId, error := none }

/-- Modelled from the spec: answering the `i`-th Question marks it
`answered`; the Idea leaves the `questions` state for `refining` once no
Question remains `pending`, and stays in `questions` otherwise. The backend
implementing it is not in the repository. -/
def answerQuestion (s : IdeaState) (i : Nat) : IdeaState :=
  let qs := s.questions.set i QStatus.answered
  if s.idea = IdeaStatus.questions ∧ ∀ q ∈ qs, q ≠ QStatus.pending then
    { s with idea := IdeaStatus.refining, questions := qs }
  else
    { s with questions := qs }

/-! ### Ticket/Subtask pipeline (`05-development-pipeline.md`) -/

/-- Ticket status, from the `tickets` table of `02-data-models.md`. -/
inductive TStatus where
  | queued | in_progress | review | blocked | done | cancelled
deriving DecidableEq, Repr

/-- Subtask status, from `05-development-pipeline.md`. -/
inductive SubStatus where
  | pending | in_progress | done | skipped | blocked
deriving DecidableEq, Repr

/-- All non-skipped Subtasks are `done`. -/
def rollup (subs : List SubStatus) : Bool :=
  subs.all fun s => s == SubStatus.done || s == SubStatus.skipped

/-- The pipeline state of one Ticket with its ordered Subtasks. -/
structure TicketState where
  status : TStatus
  subtasks : List SubStatus
deriving DecidableEq, Repr

/-- Modelled from the spec: marking the `i`-th Subtask `done`; the same
transaction checks the rollup and moves an `in_progress` Ticket to `review`
exactly when every non-skipped Subtask is now `done`. The backend
implementing it is not in the repository. -/
def markSubtaskDone (t : TicketState) (i : Nat) : TicketState :=
  let subs := t.subtasks.set i SubStatus.done
  if t.status = TStatus.in_progress ∧ rollup subs = true then
    { status := TStatus.review, subtasks := subs }
  else
    { t with subtasks := subs }

/-! ### Budget guard (`check_limits`, `11-cost-management.md`) -/

/-- The configured cost ceilings consulted by `check_limits`: the global
daily limit, the project's daily limit (via `get_project_limit`) and the
global monthly limit. Dollar amounts as rationals. -/
structure LimitsConfig where
  global_max_cost_per_day : ℚ
  project_max_cost_per_day : ℚ
  global_max_cost_per_month : ℚ
deriving DecidableEq, Repr

/-- The usage aggregates `check_limits` reads: `get_usage_today(None)`,
`get_usage_today(project_id)` and `get_usage_month(None)`. -/
structure UsageSnapshot where
  global_today : ℚ
  project_today : ℚ
  global_month : ℚ
deriving DecidableEq, Repr

/-- `check_limits(project_id)` from `11-cost-management.md`: raises
`LimitExceededError` when a current usage aggregate has reached its ceiling
(global daily, then project daily, then global monthly), else returns True.
It takes no estimated cost of the upcoming run. -/
def check_limits (cfg : LimitsConfig) (u : UsageSnapshot) : Except String Bool :=
  if u.global_today ≥ cfg.global_max_cost_per_day then
    Except.error "Global daily cost limit reached"
  else if u.project_today ≥ cfg.project_max_cost_per_day then
    Except.error "Project daily cost limit reached"
  else if u.global_month ≥ cfg.global_max_cost_per_month then
    Except.error "Global monthly cost limit reached"
  else
    Except.ok true

/-- The spec's wording of `authorize(scope, estimated_cost)`, for comparison
with `check_limits`: authorize exactly when `usage + estimated_cost` does not
exceed the ceiling. -/
def specAuthorize (usage ceiling estimated_cost : ℚ) : Bool :=
  decide (usage + estimated_cost ≤ ceiling)

/-! ### Frontend API helper (`frontend/src/api/client.js`) -/

/-- The part of a parsed JSON response body the helper reads: its `detail`
field, when the field is present. -/
structure JsonBody where
  detail : Option String
deriving DecidableEq, Repr

/-- An HTTP response as the helper observes it: the status code, and the
body's JSON parse (`none` when the body is not valid JSON, so that
`response.json()` rejects). -/
structure HttpResponse where
  status : Nat
  body : Option JsonBody
deriving DecidableEq, Repr

/-- `response.ok` per the fetch specification: status in the range 200–299. -/
def respOk (r : HttpResponse) : Bool :=
  200 ≤ r.status && r.status < 300

/-- Outcome of the helper: a resolved value (`none` models the `null`
returned for 204), a thrown `Error` with its message, or the rejection of
`response.json()` on an ok response whose body does not parse. -/
inductive RequestOutcome where
  | ok (body : Option JsonBody)
  | thrown (message : String)
  | parseFailure
deriving DecidableEq, Repr

/-- `request(endpoint, options)` from `client.js`, as a function of the
received response: when `response.ok` is false, parse the body (falling back
to `{detail: 'Request failed'}`) and throw `Error(error.detail || 'HTTP ' +
status)` — JS truthiness makes an absent or empty `detail` fall back to the
status message; when ok with status 204, resolve `null`; otherwise resolve
the parsed body. -/
def request (r : HttpResponse) : RequestOutcome :=
  if !(respOk r) then
    let err : JsonBody :=
      match r.body with
      | some b => b
      | none => { detail := some "Request failed" }
    let msg : String :=
      match err.detail with
      | some d => if d = "" then "HTTP " ++ toString r.status else d
      | none => "HTTP " ++ toString r.status
    RequestOutcome.thrown msg
  else if r.status = 204 then
    RequestOutcome.ok none
  else
    match r.body with
    | some b => RequestOutcome.ok (some b)
    | none => RequestOutcome.parseFailure

/-! ### Concrete fixtures for the testable properties of the spec -/

/-- A pending priority-5 job, due immediately (`max_attempts` at the schema
default 3). -/
def jp5 : Job :=
  { id := 1, job_type := "develop_ticket", payload := "{}", status := JobStatus.pending,
    priority := 5, attempts := 0, max_attempts := 3, scheduled_at := 0,
    started_at := none, completed_at := none, error := none, result := none }

/-- A pending priority-10 job with the same `scheduled_at` as `jp5`. -/
def jp10 : Job :=
  { jp5 with id := 2, priority := 10 }

/-- A job that has not been attempted yet. -/
def jp0 : Job :=
  { jp5 with id := 3, status := JobStatus.running }

/-- A job on its final allowed attempt. -/
def jpX : Job :=
  { jp5 with id := 4, status := JobStatus.running, attempts := 2 }

/-- A job that has exhausted its attempts and is `failed`. -/
def jdead : Job :=
  { jp5 with id := 5, status := JobStatus.failed, attempts := 3 }

/-- An idea in the `questions` state with one question still pending. -/
def qIdea : IdeaState :=
  { idea := IdeaStatus.questions, questions := [QStatus.pending, QStatus.answered],
    ticket := none }

/-- A refined idea with all questions answered, not yet converted. -/
def aIdea : IdeaState :=
  { idea := IdeaStatus.refining, questions := [QStatus.answered], ticket := none }

/-- An idea in `questions` with a single pending question. -/
def q1 : IdeaState :=
  { idea := IdeaStatus.questions, questions := [QStatus.pending], ticket := none }

/-- An idea in `questions` with two pending questions. -/
def q2 : IdeaState :=
  { idea := IdeaStatus.questions, questions := [QStatus.pending, QStatus.pending],
    ticket := none }

/-- An in-progress ticket with three pending subtasks. -/
def t3 : TicketState :=
  { status := TStatus.in_progress,
    subtasks := [SubStatus.pending, SubStatus.pending, SubStatus.pending] }

/-! ### Shared lemmas -/

/-- Once a compare-and-swap claim step finds the job no longer `pending`,
every later step leaves the state unchanged. -/
theorem foldl_casClaim_frozen (cs : List Nat) :
    ∀ (s : JobStatus) (ws : List Nat), s ≠ JobStatus.pending →
      List.foldl casClaim (s, ws) cs = (s, ws) := by
  induction cs with
  | nil => intro s ws _; rfl
  | cons c cs ih =>
    intro s ws hs
    have hstep : casClaim (s, ws) c = (s, ws) := by
      cases s <;> first | rfl | exact absurd rfl hs
    simp only [List.foldl_cons, hstep]
    exact ih s ws hs

/-- Evaluating `runClaims` on a nonempty caller list: the first caller in
the interleaving wins and is the only winner. -/
theorem runClaims_cons (c : Nat) (cs : List Nat) :
    runClaims (c :: cs) = (JobStatus.running, [c]) := by
  unfold runClaims
  simp only [List.foldl_cons]
  have hstep : casClaim (JobStatus.pending, []) c = (JobStatus.running, [c]) := rfl
  rw [hstep]
  exact foldl_casClaim_frozen cs JobStatus.running [c] (by simp)

/-- C1: under N concurrent callers invoking `claim` against the same pending
Job — modelled as an arbitrary interleaving of their atomic compare-and-swap
steps — exactly one caller (the first in the interleaving) receives the Job,
the other N−1 do not, and at no point of the interleaving has the Job been
claimed by two callers. -/
theorem claim_exactly_one_winner (c : Nat) (cs : List Nat) :
    (runClaims (c :: cs)).2 = [c] ∧
    (∀ pre suf : List Nat, c :: cs = pre ++ suf → ((runClaims pre).2).length ≤ 1) := by
  constructor
  · rw [runClaims_cons]
  · intro pre suf heq
    cases pre with
    | nil => simp [runClaims]
    | cons p ps =>
      have hp : p = c := by
        have := congrArg (fun l => l.head?) heq
        simpa using this.symm
      subst hp
      rw [runClaims_cons]
      simp

/-- Witness for C1 at a concrete interleaving of three callers. -/
theorem claim_exactly_one_winner_witness :
    (runClaims [7, 8, 9]).2 = [7] ∧ ((runClaims [7, 8]).2).length ≤ 1 := by
  constructor
  · exact (claim_exactly_one_winner 7 [8, 9]).1
  · exact (claim_exactly_one_winner 7 [8, 9]).2 [7, 8] [9] rfl

/-- One queue operation keeps a retry-exhausted, no-longer-pending job away
from `pending`. -/
theorem applyOp_preserves_dead (j : Job) (h1 : j.max_attempts ≤ j.attempts)
    (h2 : j.status ≠ JobStatus.pending) (op : QOp) :
    (applyOp j op).max_attempts ≤ (applyOp j op).attempts ∧
    (applyOp j op).status ≠ JobStatus.pending := by
  cases op with
  | claimOne now =>
    have he : eligible now j = false := by
      simp [eligible, h2]
    have : applyOp j (QOp.claimOne now) = j := by
      simp [applyOp, he]
    rw [this]
    exact ⟨h1, h2⟩
  | complete now r =>
    by_cases hd : j.status = JobStatus.done
    · have : applyOp j (QOp.complete now r) = j := by
        simp [applyOp, completeJ, hd]
      rw [this]
      exact ⟨h1, h2⟩
    · have : applyOp j (QOp.complete now r) =
          { j with status := JobStatus.done, completed_at := some now, result := some r } := by
        simp [applyOp, completeJ, hd]
      rw [this]
      exact ⟨h1, by simp⟩
  | fail now e =>
    have hn : ¬ j.attempts + 1 < j.max_attempts := by omega
    have : applyOp j (QOp.fail now e) =
        { j with attempts := j.attempts + 1, status := JobStatus.failed,
                 error := some e } := by
      dsimp [applyOp, failJ]
      rw [if_neg hn]
    rw [this]
    exact ⟨show j.max_attempts ≤ j.attempts + 1 by omega, by simp⟩
  | cancel =>
    by_cases hc : j.status = JobStatus.pending ∨ j.status = JobStatus.running
    · have : applyOp j QOp.cancel = { j with status := JobStatus.cancelled } := by
        simp [applyOp, cancelJ, hc]
      rw [this]
      exact ⟨h1, by simp⟩
    · have : applyOp j QOp.cancel = j := by
        simp [applyOp, cancelJ, hc]
      rw [this]
      exact ⟨h1, h2⟩

/-- No sequence of queue operations moves a retry-exhausted,
no-longer-pending job back to `pending`. -/
theorem foldl_applyOp_dead (ops : List QOp) :
    ∀ j : Job, j.max_attempts ≤ j.attempts → j.status ≠ JobStatus.pending →
      (ops.foldl applyOp j).status ≠ JobStatus.pending := by
  induction ops with
  | nil => intro j _ h2; exact h2
  | cons op ops ih =>
    intro j h1 h2
    have h := applyOp_preserves_dead j h1 h2 op
    simpa using ih (applyOp j op) h.1 h.2

/-- C2: `fail` increments `attempts`; while the new count is below
`max_attempts` the job is reset to `pending` with
`scheduled_at = now + backoff(attempts)` on the exponential schedule
1s, 5s, 30s (capped); otherwise the job becomes `failed`, and no sequence of
queue operations (claim, complete, fail, cancel — i.e. anything short of an
explicit human requeue) ever returns it to `pending`. -/
theorem fail_retry_backoff :
    (∀ (j : Job) (now : Nat) (err : String),
      (failJ now err j).attempts = j.attempts + 1) ∧
    (∀ (j : Job) (now : Nat) (err : String), j.attempts + 1 < j.max_attempts →
      (failJ now err j).status = JobStatus.pending ∧
      (failJ now err j).scheduled_at = now + backoff (j.attempts + 1)) ∧
    (∀ (j : Job) (now : Nat) (err : String), ¬ j.attempts + 1 < j.max_attempts →
      (failJ now err j).status = JobStatus.failed) ∧
    backoff 1 = 1 ∧ backoff 2 = 5 ∧ (∀ n, 3 ≤ n → backoff n = 30) ∧
    (∀ j : Job, j.status = JobStatus.failed → j.max_attempts ≤ j.attempts →
      ∀ ops : List QOp, (ops.foldl applyOp j).status ≠ JobStatus.pending) := by
  refine ⟨?_, ?_, ?_, rfl, rfl, ?_, ?_⟩
  · intro j now err
    dsimp only [failJ]
    split <;> rfl
  · intro j now err h
    simp [failJ, h]
  · intro j now err h
    simp [failJ, h]
  · intro n hn
    obtain ⟨k, rfl⟩ := Nat.exists_eq_add_of_le hn
    rw [Nat.add_comm]
    rfl
  · intro j hst hle ops
    exact foldl_applyOp_dead ops j hle (by rw [hst]; simp)

/-- Witness for C2 at concrete jobs: first failure reschedules with the 1s
backoff, a third failure of a `max_attempts=3` job is terminal, the cap
holds from attempt 3 on, and a claim attempt does not revive a failed job. -/
theorem fail_retry_backoff_witness :
    (failJ 100 "e" jp0).attempts = 1 ∧
    ((failJ 100 "e" jp0).status = JobStatus.pending ∧
      (failJ 100 "e" jp0).scheduled_at = 100 + backoff 1) ∧
    (failJ 100 "e" jpX).status = JobStatus.failed ∧
    backoff 5 = 30 ∧
    (([QOp.claimOne 5]).foldl applyOp jdead).status ≠ JobStatus.pending := by
  refine ⟨fail_retry_backoff.1 jp0 100 "e",
    fail_retry_backoff.2.1 jp0 100 "e" (by decide),
    fail_retry_backoff.2.2.1 jpX 100 "e" (by decide),
    fail_retry_backoff.2.2.2.2.2.1 5 (by decide),
    fail_retry_backoff.2.2.2.2.2.2 jdead (by decide) (by decide) [QOp.claimOne 5]⟩

/-- `markRunning` changes only `status` and `started_at`, so it preserves the
claim selection order. -/
theorem claimLE_markRunning (now : Nat) (a b : Job) (h : claimLE a b) :
    claimLE (markRunning now a) (markRunning now b) := h

/-- C3: `claim(worker_capacity)` returns at most `worker_capacity` jobs, each
obtained by marking `running` with `started_at = now` a job of the store that
was `pending` with `scheduled_at ≤ now`; the returned list is ordered by
`priority DESC, scheduled_at ASC` (ties in priority break by earliest
`scheduled_at`); and for two pending jobs of priorities 5 and 10 with the
same `scheduled_at`, `claim(1)` returns the priority-10 job. -/
theorem claim_selection_spec :
    (∀ (cap now : Nat) (store : List Job),
      ((claimQ cap now store).1).length ≤ cap ∧
      (∀ j ∈ (claimQ cap now store).1,
        j.status = JobStatus.running ∧ j.started_at = some now ∧
        ∃ j0 ∈ store, j0.status = JobStatus.pending ∧ j0.scheduled_at ≤ now ∧
          j = markRunning now j0) ∧
      ((claimQ cap now store).1).Pairwise claimLE) ∧
    (claimQ 1 0 [jp5, jp10]).1 = [markRunning 0 jp10] := by
  constructor
  · intro cap now store
    refine ⟨?_, ?_, ?_⟩
    · simp [claimQ]
    · intro j hj
      simp only [claimQ, List.mem_map] at hj
      obtain ⟨c, hc, rfl⟩ := hj
      have hc1 : c ∈ List.insertionSort claimLE (store.filter (eligible now)) :=
        List.mem_of_mem_take hc
      have hc2 : c ∈ store.filter (eligible now) :=
        (List.perm_insertionSort claimLE (store.filter (eligible now))).mem_iff.mp hc1
      have hc3 := List.mem_filter.mp hc2
      have hc4 : c.status = JobStatus.pending ∧ c.scheduled_at ≤ now := by
        simpa [eligible] using hc3.2
      exact ⟨rfl, rfl, c, hc3.1, hc4.1, hc4.2, rfl⟩
    · have hs : List.Pairwise claimLE
          (List.insertionSort claimLE (store.filter (eligible now))) :=
        List.sorted_insertionSort claimLE (store.filter (eligible now))
      have ht : List.Pairwise claimLE
          ((List.insertionSort claimLE (store.filter (eligible now))).take cap) :=
        List.Pairwise.sublist (List.take_sublist cap _) hs
      exact ht.map (markRunning now) (claimLE_markRunning now)
  · decide

/-- Witness for C3 at the two-job store of the spec's priority-ordering
property. -/
theorem claim_selection_spec_witness :
    ((claimQ 1 0 [jp5, jp10]).1).length ≤ 1 ∧
    (markRunning 0 jp10).status = JobStatus.running ∧
    (claimQ 1 0 [jp5, jp10]).1 = [markRunning 0 jp10] := by
  refine ⟨(claim_selection_spec.1 1 0 [jp5, jp10]).1, ?_, claim_selection_spec.2⟩
  exact ((claim_selection_spec.1 1 0 [jp5, jp10]).2.1 (markRunning 0 jp10) (by decide)).1

/-- C4 counterexample: with every ceiling at $20 and every current usage at
$19, `check_limits` authorizes (returns True) regardless of the upcoming
run's cost — it takes no estimated cost at all — while the claim demands a
denial for an estimated cost of $5 (it wants `authorize` false exactly when
`usage + estimated_cost` exceeds the ceiling, and 19 + 5 > 20). -/
theorem check_limits_estimated_cost_counterexample :
    check_limits ⟨20, 20, 20⟩ ⟨19, 19, 19⟩ = Except.ok true ∧
    specAuthorize 19 20 5 = false ∧
    specAuthorize 19 20 (1/2) = true := by
  refine ⟨rfl, ?_, ?_⟩ <;> norm_num [specAuthorize]

/-- C4 amended: `check_limits` authorizes exactly when every current usage
aggregate is still strictly below its ceiling — global daily, project daily
and global monthly — without consulting the estimated cost of the upcoming
run; in particular with usage $19 against a $20 ceiling it authorizes. -/
theorem check_limits_spec :
    (∀ (cfg : LimitsConfig) (u : UsageSnapshot),
      check_limits cfg u = Except.ok true ↔
        u.global_today < cfg.global_max_cost_per_day ∧
        u.project_today < cfg.project_max_cost_per_day ∧
        u.global_month < cfg.global_max_cost_per_month) ∧
    check_limits ⟨20, 20, 20⟩ ⟨19, 19, 19⟩ = Except.ok true := by
  constructor
  · intro cfg u
    unfold check_limits
    split_ifs with h1 h2 h3
    · simp [not_lt.mpr h1]
    · simp [not_lt.mpr h2]
    · simp [not_lt.mpr h3]
    · simp only [true_iff]
      exact ⟨lt_of_not_ge h1, lt_of_not_ge h2, lt_of_not_ge h3⟩
  · rfl

/-- C5: an Idea with at least one `pending` Question cannot be approved —
the attempt returns a validation error and the Idea's state (in particular
its status) is unchanged. -/
theorem idea_gating (s : IdeaState) (n : Nat) (h : QStatus.pending ∈ s.questions) :
    (approveIdea n s).error.isSome = true ∧ (approveIdea n s).state = s ∧
    (approveIdea n s).state.idea = s.idea := by
  simp [approveIdea, h]

/-- Witness for C5 at an idea with one pending and one answered question. -/
theorem idea_gating_witness :
    (approveIdea 3 qIdea).error.isSome = true ∧ (approveIdea 3 qIdea).state = qIdea ∧
    (approveIdea 3 qIdea).state.idea = qIdea.idea :=
  idea_gating qIdea 3 (by decide)

/-- C6: marking a Subtask `done` moves its `in_progress` Ticket to `review`
exactly when every non-skipped Subtask is then `done`; with three Subtasks,
marking two of them leaves the Ticket `in_progress` and marking the third
moves it to `review`. -/
theorem ticket_rollup :
    (∀ (t : TicketState) (i : Nat), t.status = TStatus.in_progress →
      ((markSubtaskDone t i).status = TStatus.review ↔
        rollup (t.subtasks.set i SubStatus.done) = true)) ∧
    (markSubtaskDone (markSubtaskDone t3 0) 1).status = TStatus.in_progress ∧
    (markSubtaskDone (markSubtaskDone (markSubtaskDone t3 0) 1) 2).status =
      TStatus.review := by
  refine ⟨?_, by decide, by decide⟩
  intro t i ht
  simp only [markSubtaskDone]
  split_ifs with h
  · simp [h.2]
  · have hr : ¬ rollup (t.subtasks.set i SubStatus.done) = true := fun hc => h ⟨ht, hc⟩
    simp [ht, hr]

/-- Witness for C6 at the three-subtask ticket. -/
theorem ticket_rollup_witness :
    (markSubtaskDone t3 0).status = TStatus.review ↔
      rollup (t3.subtasks.set 0 SubStatus.done) = true :=
  ticket_rollup.1 t3 0 rfl

/-- C7: the first `complete` on a not-yet-`done` Job sets `status=done`,
`completed_at=now` and stores the result; a second `complete` on the
now-`done` Job — at any later time, with any result — is a no-op, leaving
`completed_at` and `result` equal to the first call's values. -/
theorem complete_idempotent (j : Job) (t1 t2 : Nat) (r r' : String)
    (h : j.status ≠ JobStatus.done) :
    (completeJ t1 r j).status = JobStatus.done ∧
    (completeJ t1 r j).completed_at = some t1 ∧
    (completeJ t1 r j).result = some r ∧
    completeJ t2 r' (completeJ t1 r j) = completeJ t1 r j := by
  simp [completeJ, h]

/-- Witness for C7: completing a running job twice. -/
theorem complete_idempotent_witness :
    (completeJ 10 "r1" jp0).status = JobStatus.done ∧
    (completeJ 10 "r1" jp0).completed_at = some 10 ∧
    (completeJ 10 "r1" jp0).result = some "r1" ∧
    completeJ 20 "r2" (completeJ 10 "r1" jp0) = completeJ 10 "r1" jp0 :=
  complete_idempotent jp0 10 20 "r1" "r2" (by decide)

/-- C8: approving an eligible Idea synchronously creates exactly one Ticket
(the idea converts and its ticket slot fills), and re-approving the
already-converted Idea creates no new Ticket, is not an error, and returns
the existing Ticket. -/
theorem approve_idempotent (s : IdeaState) (n m : Nat)
    (hq : QStatus.pending ∉ s.questions) (ht : s.ticket = none)
    (hr : s.idea ≠ IdeaStatus.rejected) :
    (approveIdea n s).error = none ∧
    (approveIdea n s).ticket = some n ∧
    (approveIdea n s).state.ticket = some n ∧
    (approveIdea n s).state.idea = IdeaStatus.converted ∧
    approveIdea m (approveIdea n s).state =
      { state := (approveIdea n s).state, ticket := some n, error := none } := by
  simp [approveIdea, hq, ht, hr]

/-- Witness for C8: approving a refined idea and re-approving it. -/
theorem approve_idempotent_witness :
    (approveIdea 1 aIdea).error = none ∧
    (approveIdea 1 aIdea).ticket = some 1 ∧
    (approveIdea 1 aIdea).state.ticket = some 1 ∧
    (approveIdea 1 aIdea).state.idea = IdeaStatus.converted ∧
    approveIdea 2 (approveIdea 1 aIdea).state =
      { state := (approveIdea 1 aIdea).state, ticket := some 1, error := none } :=
  approve_idempotent aIdea 1 2 (by decide) (by decide) (by decide)

/-- C9: answering a Question of an Idea in the `questions` state moves the
Idea back to `refining` exactly once no Question remains `pending`; while at
least one other Question is still `pending`, the Idea stays in `questions`. -/
theorem answer_question_transitions (s : IdeaState) (i : Nat)
    (h : s.idea = IdeaStatus.questions) :
    ((∀ q ∈ s.questions.set i QStatus.answered, q ≠ QStatus.pending) →
      (answerQuestion s i).idea = IdeaStatus.refining) ∧
    (QStatus.pending ∈ s.questions.set i QStatus.answered →
      (answerQuestion s i).idea = IdeaStatus.questions) ∧
    (answerQuestion s i).questions = s.questions.set i QStatus.answered := by
  simp only [answerQuestion]
  split_ifs with hc
  · refine ⟨fun _ => rfl, fun hp => absurd rfl (hc.2 QStatus.pending hp), rfl⟩
  · refine ⟨fun hall => absurd ⟨h, hall⟩ hc, fun _ => ?_, rfl⟩
    exact h

/-- Witness for C9: answering the only pending question moves the idea to
`refining`; answering one of two pending questions leaves it in `questions`. -/
theorem answer_question_transitions_witness :
    (answerQuestion q1 0).idea = IdeaStatus.refining ∧
    (answerQuestion q2 0).idea = IdeaStatus.questions := by
  constructor
  · exact (answer_question_transitions q1 0 rfl).1 (by decide)
  · exact (answer_question_transitions q2 0 rfl).2.1 (by decide)

/-- C10 counterexample: for a 500 response whose body parses to
`{"detail": ""}`, the `detail` field is present, yet `request` throws
`Error("HTTP 500")` rather than an error with the (empty) `detail` message —
`error.detail || ...` is a JS truthiness check, and the empty string is
falsy. -/
theorem request_empty_detail_counterexample :
    request ⟨500, some ⟨some ""⟩⟩ = RequestOutcome.thrown "HTTP 500" ∧
    ("HTTP 500" : String) ≠ "" := by
  exact ⟨by decide, by decide⟩

/-- C10 amended: for every response, `request` resolves `null` on an ok 204;
resolves the parsed JSON body on any other ok response whose body parses;
and on a non-ok response it throws an `Error` (never resolving) whose
message is the body's `detail` field when that field is present and
non-empty, `HTTP <status>` when the body parses but `detail` is absent or
empty, and `Request failed` when the body cannot be parsed as JSON. -/
theorem request_behavior :
    (∀ r : HttpResponse, respOk r = true → r.status = 204 →
      request r = RequestOutcome.ok none) ∧
    (∀ (r : HttpResponse) (b : JsonBody), respOk r = true → r.status ≠ 204 →
      r.body = some b → request r = RequestOutcome.ok (some b)) ∧
    (∀ (r : HttpResponse) (d : String), respOk r = false → r.body = some ⟨some d⟩ →
      d ≠ "" → request r = RequestOutcome.thrown d) ∧
    (∀ r : HttpResponse, respOk r = false →
      (r.body = some ⟨none⟩ ∨ r.body = some ⟨some ""⟩) →
      request r = RequestOutcome.thrown ("HTTP " ++ toString r.status)) ∧
    (∀ r : HttpResponse, respOk r = false → r.body = none →
      request r = RequestOutcome.thrown "Request failed") := by
  refine ⟨?_, ?_, ?_, ?_, ?_⟩
  · intro r hok h204
    simp [request, hok, h204]
  · intro r b hok h204 hb
    simp [request, hok, h204, hb]
  · intro r d hok hb hd
    simp [request, hok, hb, hd]
  · intro r hok hb
    rcases hb with hb | hb <;> simp [request, hok, hb]
  · intro r hok hb
    simp [request, hok, hb]

/-- Witness for C10 at three concrete responses: an ok 204, a 500 with a
non-empty `detail`, and a 404 whose body does not parse. -/
theorem request_behavior_witness :
    request ⟨204, none⟩ = RequestOutcome.ok none ∧
    request ⟨500, some ⟨some "boom"⟩⟩ = RequestOutcome.thrown "boom" ∧
    request ⟨404, none⟩ = RequestOutcome.thrown "Request failed" :=
  ⟨request_behavior.1 ⟨204, none⟩ (by decide) rfl,
   request_behavior.2.2.1 ⟨500, some ⟨some "boom"⟩⟩ "boom" (by decide) rfl (by decide),
   request_behavior.2.2.2.2 ⟨404, none⟩ (by decide) rfl⟩

end Orchestrator
